import Mathlib

/-!
Shallow embedding of the attentiveness-monitoring core of the
IV-INTERNSHIP-PROJECT repository (Python), covering:

* `utils/emergency_wakeup.py`  — `EmergencyWakeup` trigger/stop state machine;
* `master_controller_gui.py`   — `AttentivenessMonitor.determine_status_simple`,
  `handle_inactivity_tracking`, `reset_inactivity_tracking`, `trigger_emergency`,
  `update_status`, and the single-face branch of `process_frame`;
* `utils/face_presence.py`     — `FacePresenceDetector.check_face_presence` and
  `_handle_no_face`;
* `utils/eye_tracking.py`      — `EyeTracker.calculate_ear`,
  `_calculate_single_eye_ear`, `_compensate_for_head_pose`;
* `utils/yawn_detection.py`    — `YawnDetector.calculate_mar`;
* `utils/ai_feedback.py`       — `AIFeedback.speak_status`.

Python floats and wall-clock times are modelled as rationals (`ℚ`); frame
statuses are the exact strings the code uses.  External library calls
(`np.linalg.norm`, MediaPipe detection, cv2) are modelled as parameters or
boolean inputs, as noted at each definition.
-/

/-- A 2D landmark point (the code works with integer pixel pairs `[x, y]`;
we allow rational coordinates, which subsume them). -/
def Point : Type := ℚ × ℚ

instance : Inhabited Point := ⟨((0 : ℚ), (0 : ℚ))⟩

instance : DecidableEq Point := fun p q =>
  inferInstanceAs (Decidable (Prod.mk p.1 p.2 = Prod.mk q.1 q.2))

/-! ## Emergency escalator (`utils/emergency_wakeup.py`) -/

/-- State of the `EmergencyWakeup` object: `is_emergency_active` flag,
the flash counter, and whether a Qt flash timer object currently exists
(`flash_timer is not None`).  The background siren/TTS threads are daemon
threads that only read `is_emergency_active` and are not part of the state. -/
structure EmergencyWakeupState where
  is_emergency_active : Bool
  flash_count : ℕ
  flash_timer : Bool
  deriving Repr, DecidableEq

/-- `EmergencyWakeup.__init__` field initialisation. -/
def emergencyInit : EmergencyWakeupState :=
  { is_emergency_active := false, flash_count := 0, flash_timer := false }

/-- `EmergencyWakeup.trigger_emergency`: early-returns if already active;
otherwise sets the flag, resets `flash_count` to 0 and (via
`start_screen_flash`) installs a fresh flash timer. -/
def trigger_emergency_protocol (e : EmergencyWakeupState) : EmergencyWakeupState :=
  if e.is_emergency_active then e
  else { is_emergency_active := true, flash_count := 0, flash_timer := true }

/-- `EmergencyWakeup.stop_emergency`: early-returns if not active; otherwise
clears the flag, stops and deletes the flash timer (`flash_timer = None`).
`flash_count` is not touched by the stop path. -/
def stop_emergency_protocol (e : EmergencyWakeupState) : EmergencyWakeupState :=
  if ¬ e.is_emergency_active then e
  else { e with is_emergency_active := false, flash_timer := false }

/-! ## Status classifier (`AttentivenessMonitor.determine_status_simple`) -/

/-- `determine_status_simple(ear, mar, current_time)` acting on the instance
counters `drowsy_counter`/`yawn_counter`; returns the updated counters and the
status string.  Thresholds are the instance constants `drowsy_threshold = 5`
and `yawn_threshold = 3`; the branch constants `0.22` and `0.6` are literals
in the code. -/
def determine_status_simple (ear mar : ℚ) (drowsy_counter yawn_counter : ℕ) :
    ℕ × ℕ × String :=
  let counters :=
    if ear < 22/100 then (drowsy_counter + 1, 0)
    else if mar > 6/10 then (0, yawn_counter + 1)
    else (0, 0)
  let status :=
    if counters.1 ≥ 5 then "Drowsy"
    else if counters.2 ≥ 3 then "Yawning"
    else "Active"
  (counters.1, counters.2, status)

/-- Statuses of a run of single-face frames `(ear, mar)` through
`determine_status_simple`, threading the two counters. -/
def statusRun : List (ℚ × ℚ) → ℕ × ℕ → List String
  | [], _ => []
  | (ear, mar) :: rest, (dc, yc) =>
    let r := determine_status_simple ear mar dc yc
    r.2.2 :: statusRun rest (r.1, r.2.1)

/-! ## Presence classifier (`utils/face_presence.py`) -/

/-- `FacePresenceDetector` default thresholds (constructor defaults, used by
the GUI, which constructs `FacePresenceDetector()` with no arguments). -/
def short_absence_threshold : ℚ := 3

/-- Long-absence default threshold (seconds). -/
def long_absence_threshold : ℚ := 10

/-- Mutable state of `FacePresenceDetector`. -/
structure FacePresenceState where
  face_lost_time : Option ℚ
  last_face_detected_time : ℚ
  deriving Repr, DecidableEq

/-- `FacePresenceDetector._handle_no_face`: sets `face_lost_time` on the first
absent frame and classifies by elapsed absence duration. -/
def handle_no_face (now : ℚ) (s : FacePresenceState) : String × FacePresenceState :=
  let lost := s.face_lost_time.getD now
  let s' : FacePresenceState := { s with face_lost_time := some lost }
  let absence_duration := now - lost
  let status :=
    if absence_duration ≥ long_absence_threshold then "Not Awake"
    else if absence_duration ≥ short_absence_threshold then "Inactive (Face Missing)"
    else "Active"
  (status, s')

/-- `FacePresenceDetector.check_face_presence(image)`.  The MediaPipe
detection result on a real image is modelled as a boolean: the input is
`none` for `image is None` (the code branches to `_handle_no_face` before any
cv2 call), `some true` for a frame on which `results.detections` is nonempty,
`some false` for a frame with no detections. -/
def check_face_presence (image : Option Bool) (now : ℚ) (s : FacePresenceState) :
    String × FacePresenceState :=
  match image with
  | none => handle_no_face now s
  | some true =>
      ("Active", { face_lost_time := none, last_face_detected_time := now })
  | some false => handle_no_face now s

/-- Statuses of a run of frames through `check_face_presence`, threading the
detector state; each frame is a detection input paired with its time. -/
def presenceRun : List (Option Bool × ℚ) → FacePresenceState → List String
  | [], _ => []
  | (img, t) :: rest, s =>
    let r := check_face_presence img t s
    r.1 :: presenceRun rest r.2

/-- Detector state after a run of frames through `check_face_presence`. -/
def presenceRunState : List (Option Bool × ℚ) → FacePresenceState → FacePresenceState
  | [], s => s
  | (img, t) :: rest, s => presenceRunState rest (check_face_presence img t s).2

/-- The status `_handle_no_face` assigns to an absence of duration `d`
(read off from its three-way branch). -/
def presencePhase (d : ℚ) : String :=
  if d ≥ long_absence_threshold then "Not Awake"
  else if d ≥ short_absence_threshold then "Inactive (Face Missing)"
  else "Active"

/-- Severity rank of a presence status, for the never-regressing property:
Active < Inactive (Face Missing) < Not Awake. -/
def presenceRank (st : String) : ℕ :=
  if st = "Active" then 0
  else if st = "Inactive (Face Missing)" then 1
  else 2

/-! ## Inactivity tracker (`AttentivenessMonitor`, `master_controller_gui.py`) -/

/-- Default `inactivity_threshold` (seconds), set in
`AttentivenessMonitor.__init__`. -/
def inactivity_threshold : ℚ := 5

/-- The `AttentivenessMonitor` state relevant to inactivity tracking:
`inactive_start_time` / `emergency_triggered` / `current_status` /
`last_active_time` / `last_ear` / `last_mar` and the two debounce counters,
plus the owned `EmergencyWakeup` object. -/
structure MonitorState where
  inactive_start_time : Option ℚ
  emergency_triggered : Bool
  current_status : String
  last_active_time : ℚ
  last_ear : ℚ
  last_mar : ℚ
  drowsy_counter : ℕ
  yawn_counter : ℕ
  emergency : EmergencyWakeupState
  deriving Repr, DecidableEq

/-- Observable side effects of one tracker step:
`emergency_call` is true when `AttentivenessMonitor.trigger_emergency` runs
(emergency escalator triggered, "Emergency" event logged);
`returned_event` is `some (duration, ear, mar)` when
`ActivityLogger.log_inactive_to_active_transition(duration, ear, mar)` runs;
`emergency_stopped` is true when `reset_inactivity_tracking` calls
`EmergencyWakeup.stop_emergency` on an active emergency. -/
structure FrameEvents where
  emergency_call : Bool
  returned_event : Option (ℚ × ℚ × ℚ)
  emergency_stopped : Bool
  deriving Repr, DecidableEq

/-- A step with no observable tracker side effects. -/
def noEvents : FrameEvents :=
  { emergency_call := false, returned_event := none, emergency_stopped := false }

/-- `AttentivenessMonitor.reset_inactivity_tracking`: if an inactivity window
is open and the currently displayed status is not "Active", logs the
inactive→active transition with the total duration and the stored
`last_ear`/`last_mar`; then closes the window, clears `emergency_triggered`,
updates `last_active_time`, and stops the emergency if it is active. -/
def reset_inactivity_tracking (now : ℚ) (s : MonitorState) : MonitorState × FrameEvents :=
  let ret : Option (ℚ × ℚ × ℚ) :=
    match s.inactive_start_time with
    | some t0 =>
        if s.current_status ≠ "Active" then some (now - t0, s.last_ear, s.last_mar)
        else none
    | none => none
  let stopped := s.emergency.is_emergency_active
  let e' := if s.emergency.is_emergency_active then stop_emergency_protocol s.emergency
            else s.emergency
  ({ s with
      inactive_start_time := none
      emergency_triggered := false
      last_active_time := now
      emergency := e' },
   { emergency_call := false, returned_event := ret, emergency_stopped := stopped })

/-- `AttentivenessMonitor.trigger_emergency`: invokes the escalator's
`trigger_emergency`, logs an "Emergency" event and speaks an alert.  Only the
escalator state changes here. -/
def monitor_trigger_emergency (s : MonitorState) : MonitorState :=
  { s with emergency := trigger_emergency_protocol s.emergency }

/-- `AttentivenessMonitor.handle_inactivity_tracking(status, current_time)`:
for a non-"Active" status, opens the window on the first such frame, and when
`inactive_duration ≥ inactivity_threshold` with `emergency_triggered` still
false, calls `trigger_emergency` and sets the flag; for "Active" it delegates
to `reset_inactivity_tracking`. -/
def handle_inactivity_tracking (status : String) (now : ℚ) (s : MonitorState) :
    MonitorState × FrameEvents :=
  if status ≠ "Active" then
    let t0 := s.inactive_start_time.getD now
    let s1 : MonitorState := { s with inactive_start_time := some t0 }
    let inactive_duration := now - t0
    if inactive_duration ≥ inactivity_threshold ∧ s.emergency_triggered = false then
      ({ monitor_trigger_emergency s1 with emergency_triggered := true },
       { emergency_call := true, returned_event := none, emergency_stopped := false })
    else (s1, noEvents)
  else reset_inactivity_tracking now s

/-- `AttentivenessMonitor.update_status`: records the new status string on a
change (logging and voice feedback are side effects outside this state). -/
def update_status (status : String) (s : MonitorState) : MonitorState :=
  if status ≠ s.current_status then { s with current_status := status } else s

/-- The single-face branch of `AttentivenessMonitor.process_frame`, after the
extractors produced the smoothed `ear`/`mar` of this frame: stores them in
`last_ear`/`last_mar`, runs `determine_status_simple`, then
`reset_inactivity_tracking` for "Active" or `handle_inactivity_tracking`
otherwise, then `update_status`. -/
def process_single_face (ear mar now : ℚ) (s : MonitorState) : MonitorState × FrameEvents :=
  let s0 : MonitorState := { s with last_ear := ear, last_mar := mar }
  let r := determine_status_simple ear mar s0.drowsy_counter s0.yawn_counter
  let s1 : MonitorState := { s0 with drowsy_counter := r.1, yawn_counter := r.2.1 }
  let status := r.2.2
  let step :=
    if status = "Active" then reset_inactivity_tracking now s1
    else handle_inactivity_tracking status now s1
  (update_status status step.1, step.2)

/-- States after each frame of a run of `handle_inactivity_tracking` steps,
each frame being a status paired with its time. -/
def trackerStates : List (String × ℚ) → MonitorState → List MonitorState
  | [], _ => []
  | (st, t) :: rest, s =>
    let s1 := (handle_inactivity_tracking st t s).1
    s1 :: trackerStates rest s1

/-- Events of each frame of a run of `handle_inactivity_tracking` steps. -/
def trackerEvents : List (String × ℚ) → MonitorState → List FrameEvents
  | [], _ => []
  | (st, t) :: rest, s =>
    let r := handle_inactivity_tracking st t s
    r.2 :: trackerEvents rest r.1

/-! ## Eye-openness extractor (`utils/eye_tracking.py`)

`np.linalg.norm(p - q)` (the Euclidean distance between two landmark points)
is an external numpy library call; it is modelled as a parameter
`nrm : Point → Point → ℚ`, assumed nonnegative where a theorem needs it.
Every other step of the extractor is embedded exactly. -/

/-- `EyeTracker.left_eye_points`. -/
def left_eye_points : List ℕ := [33, 160, 158, 133, 153, 144]

/-- `EyeTracker.right_eye_points`. -/
def right_eye_points : List ℕ := [362, 385, 387, 263, 373, 380]

/-- Mutable state of `EyeTracker` used by `calculate_ear`: the smoothing
history and the last smoothed value. -/
structure EyeTrackerState where
  ear_history : List ℚ
  last_ear : ℚ
  deriving Repr, DecidableEq

/-- `EyeTracker.__init__`: empty history, `last_ear = 0.3`. -/
def eyeInit : EyeTrackerState := { ear_history := [], last_ear := 3/10 }

/-- `EyeTracker._calculate_single_eye_ear(landmarks, eye_points)`: any index
out of range yields the default `0.25`; otherwise the two vertical distances
over twice the horizontal distance, clamped to `[0, 1]`, guarded by
`horizontal_dist > 0.5` (else the previous `last_ear` is reused). -/
def calculate_single_eye_ear (nrm : Point → Point → ℚ) (landmarks : List Point)
    (eye_points : List ℕ) (last_ear : ℚ) : ℚ :=
  if eye_points.all (fun i => i < landmarks.length) then
    let eye_coords := eye_points.map (fun i => landmarks.getD i default)
    if eye_coords.length < 6 then 25/100
    else
      let vertical_dist1 := nrm (eye_coords.getD 1 default) (eye_coords.getD 5 default)
      let vertical_dist2 := nrm (eye_coords.getD 2 default) (eye_coords.getD 4 default)
      let horizontal_dist := nrm (eye_coords.getD 0 default) (eye_coords.getD 3 default)
      if horizontal_dist > 1/2 then
        max 0 (min 1 ((vertical_dist1 + vertical_dist2) / (2 * horizontal_dist)))
      else last_ear
  else 25/100

/-- Head pose data passed to `_compensate_for_head_pose` (a dict with
`pitch` and `yaw` entries). -/
structure HeadPose where
  pitch : ℚ
  yaw : ℚ
  deriving Repr, DecidableEq

/-- `EyeTracker._compensate_for_head_pose`: multiply by 1.1 if `pitch > 10`,
by 0.95 if `pitch < -10`, and (independently) by 1.05 if `|yaw| > 20`. -/
def compensate_for_head_pose (ear : ℚ) (hp : HeadPose) : ℚ :=
  let e1 :=
    if hp.pitch > 10 then ear * (11/10)
    else if hp.pitch < -10 then ear * (95/100)
    else ear
  if |hp.yaw| > 20 then e1 * (105/100) else e1

/-- The raw (pre-smoothing) EAR sample `calculate_ear` computes on one frame:
mean of the two single-eye values, with optional head-pose compensation. -/
def ear_raw (nrm : Point → Point → ℚ) (landmarks : List Point)
    (head_pose_data : Option HeadPose) (s : EyeTrackerState) : ℚ :=
  let left_ear := calculate_single_eye_ear nrm landmarks left_eye_points s.last_ear
  let right_ear := calculate_single_eye_ear nrm landmarks right_eye_points s.last_ear
  let ear := (left_ear + right_ear) / 2
  match head_pose_data with
  | some hp => compensate_for_head_pose ear hp
  | none => ear

/-- `EyeTracker.calculate_ear(landmarks, head_pose_data)`: appends the raw
sample to `ear_history`, pops the oldest entry when the history exceeds 8,
and returns the mean of the history, which also becomes `last_ear`. -/
def calculate_ear (nrm : Point → Point → ℚ) (landmarks : List Point)
    (head_pose_data : Option HeadPose) (s : EyeTrackerState) : ℚ × EyeTrackerState :=
  let raw := ear_raw nrm landmarks head_pose_data s
  let appended := s.ear_history ++ [raw]
  let hist := if appended.length > 8 then appended.drop 1 else appended
  let smoothed_ear := hist.sum / (hist.length : ℚ)
  (smoothed_ear, { ear_history := hist, last_ear := smoothed_ear })

/-- Smoothed EAR outputs of a run of frames `(landmarks, head_pose_data)`
through `calculate_ear`, threading the tracker state. -/
def earOutputs (nrm : Point → Point → ℚ) :
    List (List Point × Option HeadPose) → EyeTrackerState → List ℚ
  | [], _ => []
  | (lms, hp) :: rest, s =>
    let r := calculate_ear nrm lms hp s
    r.1 :: earOutputs nrm rest r.2

/-- Raw per-frame EAR samples of the same run (the values appended to the
smoothing history). -/
def earRaws (nrm : Point → Point → ℚ) :
    List (List Point × Option HeadPose) → EyeTrackerState → List ℚ
  | [], _ => []
  | (lms, hp) :: rest, s =>
    ear_raw nrm lms hp s :: earRaws nrm rest (calculate_ear nrm lms hp s).2

/-! ## Mouth-openness extractor (`utils/yawn_detection.py`) -/

/-- `YawnDetector.mouth_points`. -/
def mouth_points : List ℕ := [13, 14, 78, 308, 18, 175]

/-- Mutable state of `YawnDetector` used by `calculate_mar`. -/
structure YawnDetectorState where
  mar_history : List ℚ
  last_mar : ℚ
  deriving Repr, DecidableEq

/-- `YawnDetector.__init__`: empty history, `last_mar = 0.0`. -/
def yawnInit : YawnDetectorState := { mar_history := [], last_mar := 0 }

/-- The raw (pre-smoothing) MAR sample of one valid frame: two vertical
distances over twice the horizontal, guarded by `horizontal_dist > 1.0`
(else the previous `last_mar` is reused).  No clamp is applied to MAR. -/
def mar_raw (nrm : Point → Point → ℚ) (landmarks : List Point)
    (s : YawnDetectorState) : ℚ :=
  let mouth_coords := mouth_points.map (fun i => landmarks.getD i default)
  let vertical_dist1 := nrm (mouth_coords.getD 0 default) (mouth_coords.getD 4 default)
  let vertical_dist2 := nrm (mouth_coords.getD 1 default) (mouth_coords.getD 5 default)
  let horizontal_dist := nrm (mouth_coords.getD 2 default) (mouth_coords.getD 3 default)
  if horizontal_dist > 1 then (vertical_dist1 + vertical_dist2) / (2 * horizontal_dist)
  else s.last_mar

/-- `YawnDetector.calculate_mar(landmarks)`: a missing mouth landmark index
returns the previous `last_mar` with the state untouched; otherwise the raw
sample is appended to `mar_history` (popping the oldest beyond 10) and the
mean of the history is returned and stored as `last_mar`. -/
def calculate_mar (nrm : Point → Point → ℚ) (landmarks : List Point)
    (s : YawnDetectorState) : ℚ × YawnDetectorState :=
  if mouth_points.all (fun i => i < landmarks.length) then
    let mouth_coords := mouth_points.map (fun i => landmarks.getD i default)
    if mouth_coords.length < 6 then (s.last_mar, s)
    else
      let raw := mar_raw nrm landmarks s
      let appended := s.mar_history ++ [raw]
      let hist := if appended.length > 10 then appended.drop 1 else appended
      let smoothed_mar := hist.sum / (hist.length : ℚ)
      (smoothed_mar, { mar_history := hist, last_mar := smoothed_mar })
  else (s.last_mar, s)

/-- Smoothed MAR outputs of a run of landmark frames through `calculate_mar`. -/
def marOutputs (nrm : Point → Point → ℚ) :
    List (List Point) → YawnDetectorState → List ℚ
  | [], _ => []
  | lms :: rest, s =>
    let r := calculate_mar nrm lms s
    r.1 :: marOutputs nrm rest r.2

/-- Raw per-frame MAR samples of the same run (meaningful on runs whose
frames all contain the required mouth indices, where every frame appends). -/
def marRaws (nrm : Point → Point → ℚ) :
    List (List Point) → YawnDetectorState → List ℚ
  | [], _ => []
  | lms :: rest, s =>
    mar_raw nrm lms s :: marRaws nrm rest (calculate_mar nrm lms s).2

/-- The taxicab distance on points: a concrete nonnegative distance function
used to instantiate `nrm` in witnesses and counterexamples.  On the
axis-aligned point pairs used there it coincides with the Euclidean
`np.linalg.norm` of the code. -/
def taxi (p q : Point) : ℚ := |p.1 - q.1| + |p.2 - q.2|

/-- The last `n` elements of a list (the contents of a FIFO smoothing window
of capacity `n` after the whole list has been pushed through it). -/
def lastN (n : ℕ) (l : List ℚ) : List ℚ := l.drop (l.length - n)

/-! ## Notification sink (`utils/ai_feedback.py`) -/

/-- `AIFeedback` critical statuses (spoken with high priority). -/
def critical_statuses : List String := ["Emergency", "Not Awake", "Fake Presence", "Drowsy"]

/-- `AIFeedback.min_speech_interval` (seconds). -/
def min_speech_interval : ℚ := 3

/-- State of `AIFeedback` relevant to `speak_status`: whether the TTS engine
initialised, the de-duplication bookkeeping, the busy flag read from the
worker thread, and the pending queue.  The queue holds the status whose
message was enqueued together with its priority string (the concrete message
text is drawn randomly from `status_messages[status]` and does not affect
control flow). -/
structure AIFeedbackState where
  tts_engine : Bool
  last_spoken_status : Option String
  last_speech_time : ℚ
  is_speaking : Bool
  speech_queue : List (String × String)
  deriving Repr, DecidableEq

/-- `AIFeedback.speak_status(status)`: no-op without a TTS engine; a repeat of
`last_spoken_status` within `min_speech_interval` returns early (before any
priority is computed); while speaking, non-critical statuses return early;
otherwise the priority is `"high"` exactly for critical statuses, a high
priority clears the pending queue, and the message is enqueued
(`queue.Queue()` is unbounded, so `put(block=False)` never raises `Full`)
and the de-duplication bookkeeping is updated. -/
def speak_status (status : String) (now : ℚ) (s : AIFeedbackState) : AIFeedbackState :=
  if ¬ s.tts_engine then s
  else if s.last_spoken_status = some status ∧ now - s.last_speech_time < min_speech_interval then s
  else if s.is_speaking ∧ ¬ status ∈ critical_statuses then s
  else
    let priority := if status ∈ critical_statuses then "high" else "normal"
    let q0 := if priority = "high" then [] else s.speech_queue
    { s with
        speech_queue := q0 ++ [(status, priority)]
        last_spoken_status := some status
        last_speech_time := now }

/-! ## Theorems -/

/-- Helper for C4: running `determine_status_simple` from drowsy counter `dc`
and yawn counter 0 over frames whose EAR is below the drowsy threshold yields
"Drowsy" exactly from the frame where the accumulated count reaches 5. -/
theorem statusRun_all_drowsy_ear (frames : List (ℚ × ℚ)) :
    ∀ (dc : ℕ), (∀ p ∈ frames, p.1 < 22/100) →
    ∀ k, k < frames.length →
    (statusRun frames (dc, 0))[k]?
      = some (if 5 ≤ dc + k + 1 then "Drowsy" else "Active") := by
  induction frames with
  | nil => intro dc _ k hk; simp at hk
  | cons p rest ih =>
    intro dc h k hk
    have hear : p.1 < 22/100 := h p (by simp)
    obtain ⟨ear, mar⟩ := p
    simp only [statusRun, determine_status_simple, if_pos hear]
    cases k with
    | zero =>
      simp only [List.getElem?_cons_zero, Option.some.injEq]
      by_cases h5 : 5 ≤ dc + 1
      · rw [if_pos h5, if_pos (by omega : 5 ≤ dc + 0 + 1)]
      · rw [if_neg h5]
        rw [if_neg (by omega : ¬ 5 ≤ dc + 0 + 1)]
        simp
    | succ k =>
      simp only [List.getElem?_cons_succ]
      have hrec := ih (dc + 1) (fun q hq => h q (List.mem_cons_of_mem _ hq)) k
        (by simpa using Nat.lt_of_succ_lt_succ hk)
      rw [hrec]
      congr 1
      have heq : dc + 1 + k + 1 = dc + (k + 1) + 1 := by omega
      rw [heq]

/-- C4: starting from zero counters, on a run of single-face frames with EAR
held below the drowsy threshold 0.22, `determine_status_simple` returns
"Drowsy" for the first time exactly on the 5th frame (frames 1–4 are
"Active") and on every subsequent frame of the run. -/
theorem c4_drowsy_on_fifth_frame (frames : List (ℚ × ℚ))
    (h : ∀ p ∈ frames, p.1 < 22/100) (k : ℕ) (hk : k < frames.length) :
    (statusRun frames (0, 0))[k]?
      = some (if k + 1 < 5 then "Active" else "Drowsy") := by
  rw [statusRun_all_drowsy_ear frames 0 h k hk]
  by_cases h5 : k + 1 < 5
  · rw [if_neg (by omega : ¬ 5 ≤ 0 + k + 1), if_pos h5]
  · rw [if_pos (by omega : 5 ≤ 0 + k + 1), if_neg h5]

/-- Witness for C4: the spec scenario — 10 consecutive frames with EAR = 0.15
(below 0.22); frame 8 (index 7) reports "Drowsy". -/
theorem c4_drowsy_on_fifth_frame_witness :
    (statusRun (List.replicate 10 ((15/100 : ℚ), (0 : ℚ))) (0, 0))[7]?
      = some "Drowsy" := by
  have h := c4_drowsy_on_fifth_frame (List.replicate 10 ((15/100 : ℚ), (0 : ℚ)))
    (fun p hp => by rw [List.eq_of_mem_replicate hp]; norm_num) 7 (by simp)
  simpa using h

/-- C8: on every single-face frame, the two debounce counters of
`determine_status_simple` are mutually exclusive: the drowsy branch
(EAR < 0.22) increments `drowsy_counter` and zeroes `yawn_counter`, the yawn
branch (else MAR > 0.6) increments `yawn_counter` and zeroes
`drowsy_counter`, and after any frame at most one counter is nonzero. -/
theorem c8_counters_mutually_exclusive (ear mar : ℚ) (dc yc : ℕ) :
    (ear < 22/100 →
      (determine_status_simple ear mar dc yc).1 = dc + 1 ∧
      (determine_status_simple ear mar dc yc).2.1 = 0) ∧
    (¬ ear < 22/100 → mar > 6/10 →
      (determine_status_simple ear mar dc yc).2.1 = yc + 1 ∧
      (determine_status_simple ear mar dc yc).1 = 0) ∧
    ((determine_status_simple ear mar dc yc).1 = 0 ∨
      (determine_status_simple ear mar dc yc).2.1 = 0) := by
  simp only [determine_status_simple]
  by_cases h1 : ear < 22/100 <;> by_cases h2 : mar > 6/10 <;> simp [h1, h2]

/-- Witness for C8: a frame with EAR = 0.1 (drowsy condition) increments the
drowsy counter from 2 to 3 and zeroes a pending yawn counter of 1. -/
theorem c8_counters_mutually_exclusive_witness :
    (determine_status_simple (1/10) (7/10) 2 1).1 = 2 + 1 ∧
    (determine_status_simple (1/10) (7/10) 2 1).2.1 = 0 :=
  (c8_counters_mutually_exclusive (1/10) (7/10) 2 1).1 (by norm_num)

/-- C7: the emergency escalator's `stop_emergency` while Idle is a no-op (no
state change), `trigger_emergency` while Active is a no-op, and stop is
idempotent from any state. -/
theorem c7_stop_trigger_noops (e : EmergencyWakeupState) :
    (e.is_emergency_active = false → stop_emergency_protocol e = e) ∧
    (e.is_emergency_active = true → trigger_emergency_protocol e = e) ∧
    stop_emergency_protocol (stop_emergency_protocol e) = stop_emergency_protocol e := by
  refine ⟨fun h => ?_, fun h => ?_, ?_⟩
  · simp [stop_emergency_protocol, h]
  · simp [trigger_emergency_protocol, h]
  · by_cases h : e.is_emergency_active = true
    · simp [stop_emergency_protocol, h]
    · simp only [Bool.not_eq_true] at h
      simp [stop_emergency_protocol, h]

/-- Witness for C7: stopping the freshly initialised (Idle) escalator changes
nothing, and triggering an Active escalator changes nothing. -/
theorem c7_stop_trigger_noops_witness :
    stop_emergency_protocol emergencyInit = emergencyInit ∧
    trigger_emergency_protocol ⟨true, 2, true⟩ = ⟨true, 2, true⟩ :=
  ⟨(c7_stop_trigger_noops emergencyInit).1 rfl,
   (c7_stop_trigger_noops ⟨true, 2, true⟩).2.1 rfl⟩

/-- C10: a `None` input image is handled by `check_face_presence` exactly like
a frame with no detected face — no error, no separate status: it starts or
continues the absence timer, and a permanently-`None` feed produces the same
status run as a real continuous absence. -/
theorem c10_none_image_treated_as_absent :
    (∀ now s, check_face_presence none now s = check_face_presence (some false) now s) ∧
    (∀ now s, (check_face_presence none now s).2.face_lost_time
        = some (s.face_lost_time.getD now)) ∧
    (∀ (times : List ℚ) (s : FacePresenceState),
      presenceRun (times.map (fun t => ((none : Option Bool), t))) s
        = presenceRun (times.map (fun t => (some false, t))) s) := by
  refine ⟨fun now s => rfl, fun now s => rfl, fun times => ?_⟩
  induction times with
  | nil => intro s; rfl
  | cons t rest ih =>
    intro s
    simp only [List.map_cons, presenceRun]
    exact congrArg _ (ih _)

/-- `presenceRank` values on the three presence statuses. -/
theorem presenceRank_values :
    presenceRank "Active" = 0 ∧ presenceRank "Inactive (Face Missing)" = 1 ∧
    presenceRank "Not Awake" = 2 := by
  refine ⟨?_, ?_, ?_⟩ <;> decide

/-- The presence phase never regresses as the absence duration grows. -/
theorem presenceRank_phase_mono {a b : ℚ} (hab : a ≤ b) :
    presenceRank (presencePhase a) ≤ presenceRank (presencePhase b) := by
  obtain ⟨r0, r1, r2⟩ := presenceRank_values
  unfold presencePhase
  unfold long_absence_threshold short_absence_threshold
  split_ifs with h1 h2 h3 h4 h5 <;>
    simp only [r0, r1, r2] <;> first | omega | linarith

/-- Helper for C3: once the absence window is open at `t0`, every further
no-face frame keeps `face_lost_time = t0` and reports the phase of the
elapsed absence. -/
theorem presenceRun_open_window (ts : List ℚ) : ∀ (s : FacePresenceState) (t0 : ℚ),
    s.face_lost_time = some t0 →
    presenceRun (ts.map (fun t => ((some false : Option Bool), t))) s
      = ts.map (fun t => presencePhase (t - t0)) ∧
    presenceRunState (ts.map (fun t => ((some false : Option Bool), t))) s = s := by
  induction ts with
  | nil => intro s t0 _; exact ⟨rfl, rfl⟩
  | cons t rest ih =>
    intro s t0 h
    obtain ⟨flt, lt⟩ := s
    simp only at h
    subst h
    have step : check_face_presence (some false) t
        (⟨some t0, lt⟩ : FacePresenceState)
        = (presencePhase (t - t0), ⟨some t0, lt⟩) := rfl
    obtain ⟨h1, h2⟩ := ih (⟨some t0, lt⟩ : FacePresenceState) t0 rfl
    constructor
    · simp only [List.map_cons, presenceRun, step, h1]
    · simp only [List.map_cons, presenceRunState, step, h2]

/-- C3: on a continuous run of no-face frames from a face-present state, the
absence timer is started at the first absent frame's time `t0`, stays there
for the whole run, and each frame reports "Active" below 3s of absence,
"Inactive (Face Missing)" from 3s (exclusive of 10s), "Not Awake" from 10s;
under nondecreasing frame times the reported status never regresses; and any
face-detected frame resets the timer to `None`. -/
theorem c3_absence_progression (t0 : ℚ) (ts : List ℚ) (s0 : FacePresenceState)
    (h0 : s0.face_lost_time = none) :
    (presenceRun ((t0 :: ts).map (fun t => ((some false : Option Bool), t))) s0
      = (t0 :: ts).map (fun t => presencePhase (t - t0)))
  ∧ (presenceRunState ((t0 :: ts).map (fun t => ((some false : Option Bool), t))) s0).face_lost_time
      = some t0
  ∧ ((t0 :: ts).Chain' (· ≤ ·) →
      (presenceRun ((t0 :: ts).map (fun t => ((some false : Option Bool), t))) s0).Chain'
        (fun a b => presenceRank a ≤ presenceRank b))
  ∧ (∀ (d : ℚ), (d < short_absence_threshold → presencePhase d = "Active")
      ∧ (short_absence_threshold ≤ d → d < long_absence_threshold →
          presencePhase d = "Inactive (Face Missing)")
      ∧ (long_absence_threshold ≤ d → presencePhase d = "Not Awake"))
  ∧ (∀ now s, (check_face_presence (some true) now s).2.face_lost_time = none) := by
  obtain ⟨flt, lt⟩ := s0
  simp only at h0
  subst h0
  have step : check_face_presence (some false) t0
      (⟨none, lt⟩ : FacePresenceState)
      = (presencePhase (t0 - t0), ⟨some t0, lt⟩) := rfl
  obtain ⟨h1, h2⟩ := presenceRun_open_window ts (⟨some t0, lt⟩ : FacePresenceState) t0 rfl
  have hrun : presenceRun ((t0 :: ts).map (fun t => ((some false : Option Bool), t)))
      (⟨none, lt⟩ : FacePresenceState) = (t0 :: ts).map (fun t => presencePhase (t - t0)) := by
    simp only [List.map_cons, presenceRun, step, h1]
  refine ⟨hrun, ?_, ?_, ?_, fun now s => rfl⟩
  · simp only [List.map_cons, presenceRunState, step, h2]
  · intro hchain
    rw [hrun, List.chain'_map]
    exact hchain.imp (fun a b hab => presenceRank_phase_mono (by linarith))
  · intro d
    refine ⟨fun h => ?_, fun h h' => ?_, fun h => ?_⟩ <;>
      · unfold presencePhase
        unfold long_absence_threshold short_absence_threshold at *
        split_ifs <;> first | rfl | linarith

/-- Witness for C3: frames with no face at times 0, 3, 10 report
Active, Inactive (Face Missing), Not Awake. -/
theorem c3_absence_progression_witness :
    presenceRun ([(0:ℚ), 3, 10].map (fun t => ((some false : Option Bool), t)))
      (⟨none, 0⟩ : FacePresenceState)
      = [(0:ℚ), 3, 10].map (fun t => presencePhase (t - 0)) :=
  (c3_absence_progression 0 [3, 10] (⟨none, 0⟩ : FacePresenceState) rfl).1

/-- Prefix-or of a boolean sequence from an accumulator: entry `k` is true iff
the accumulator or any of the first `k+1` inputs is true (the evolution of a
sticky flag). -/
def scanOr : Bool → List Bool → List Bool
  | _, [] => []
  | a, b :: bs => (a || b) :: scanOr (a || b) bs

/-- First-hit marker of a boolean sequence from an accumulator: entry `k` is
true iff input `k` is the first true entry and the accumulator started
false (the single firing of a sticky one-shot). -/
def firstHits : Bool → List Bool → List Bool
  | _, [] => []
  | a, b :: bs => (!a && b) :: firstHits (a || b) bs

/-- Entry `k` of `firstHits` is true exactly when the accumulator started
false, entry `k` of the input is true, and all earlier entries are false. -/
theorem firstHits_getElem_some_true (bs : List Bool) :
    ∀ (a : Bool) (k : ℕ), ((firstHits a bs)[k]? = some true) ↔
      (a = false ∧ bs[k]? = some true ∧ ∀ j, j < k → bs[j]? = some false) := by
  induction bs with
  | nil =>
    intro a k
    rw [show firstHits a [] = [] from rfl]
    simp
  | cons b bs ih =>
    intro a k
    cases k with
    | zero =>
      simp only [firstHits, List.getElem?_cons_zero, Option.some.injEq]
      constructor
      · intro h
        have ha : a = false := by
          cases a <;> simp_all
        have hb : b = true := by
          cases b <;> simp_all
        exact ⟨ha, by simp [hb], fun j hj => absurd hj (by omega)⟩
      · rintro ⟨ha, hb, -⟩
        simp [ha, hb]
    | succ k =>
      simp only [firstHits, List.getElem?_cons_succ]
      rw [ih (a || b) k]
      constructor
      · rintro ⟨hab, hk, hj⟩
        have ha : a = false := by cases a <;> simp_all
        have hb : b = false := by cases b <;> simp_all
        refine ⟨ha, hk, fun j hjk => ?_⟩
        cases j with
        | zero => simp [hb]
        | succ j => simpa using hj j (by omega)
      · rintro ⟨ha, hk, hj⟩
        have hb : b = false := by
          have := hj 0 (by omega)
          simpa using this
        exact ⟨by simp [ha, hb], hk, fun j hjk => by simpa using hj (j + 1) (by omega)⟩

/-- Entry `k` of `scanOr` is true exactly when the accumulator or some input
entry up to `k` is true. -/
theorem scanOr_getElem_iff (bs : List Bool) :
    ∀ (a : Bool) (k : ℕ) (c : Bool), (scanOr a bs)[k]? = some c →
      (c = true ↔ a = true ∨ ∃ j, j ≤ k ∧ bs[j]? = some true) := by
  induction bs with
  | nil => intro a k c h; simp [scanOr] at h
  | cons b bs ih =>
    intro a k c
    cases k with
    | zero =>
      simp only [scanOr, List.getElem?_cons_zero, Option.some.injEq]
      intro h
      subst h
      constructor
      · intro h
        rcases Bool.or_eq_true_iff.mp h with ha | hb
        · exact Or.inl ha
        · exact Or.inr ⟨0, le_refl 0, by simp [hb]⟩
      · rintro (ha | ⟨j, hj, hb⟩)
        · simp [ha]
        · interval_cases j
          simp only [List.getElem?_cons_zero, Option.some.injEq] at hb
          simp [hb]
    | succ k =>
      simp only [scanOr, List.getElem?_cons_succ]
      intro h
      rw [ih (a || b) k c h]
      constructor
      · rintro (hab | ⟨j, hj, hb⟩)
        · rcases Bool.or_eq_true_iff.mp hab with ha | hb
          · exact Or.inl ha
          · exact Or.inr ⟨0, by omega, by simp [hb]⟩
        · exact Or.inr ⟨j + 1, by omega, by simpa using hb⟩
      · rintro (ha | ⟨j, hj, hb⟩)
        · exact Or.inl (by simp [ha])
        · cases j with
          | zero =>
            simp only [List.getElem?_cons_zero, Option.some.injEq] at hb
            exact Or.inl (by simp [hb])
          | succ j => exact Or.inr ⟨j, by omega, by simpa using hb⟩

/-- Characterisation of a run of `handle_inactivity_tracking` on non-"Active"
statuses from a state whose window is already open at `t0`: the window stays
at `t0`; the `emergency_triggered` flag evolves as the sticky or of the
per-frame condition `elapsed ≥ inactivity_threshold`; `trigger_emergency` is
called exactly at the first-hit positions of that condition. -/
theorem trackerRun_char (frames : List (String × ℚ)) :
    ∀ (s : MonitorState) (t0 : ℚ), s.inactive_start_time = some t0 →
    (∀ g ∈ frames, g.1 ≠ "Active") →
    ((trackerStates frames s).map (fun m => m.inactive_start_time)
        = frames.map (fun _ => some t0))
  ∧ ((trackerStates frames s).map (fun m => m.emergency_triggered)
        = scanOr s.emergency_triggered
            (frames.map (fun g => decide (g.2 - t0 ≥ inactivity_threshold))))
  ∧ ((trackerEvents frames s).map (fun e => e.emergency_call)
        = firstHits s.emergency_triggered
            (frames.map (fun g => decide (g.2 - t0 ≥ inactivity_threshold)))) := by
  induction frames with
  | nil => intro s t0 _ _; exact ⟨rfl, rfl, rfl⟩
  | cons f rest ih =>
    intro s t0 h hall
    obtain ⟨st, t⟩ := f
    have hst : st ≠ "Active" := hall (st, t) (by simp)
    by_cases hc : t - t0 ≥ inactivity_threshold ∧ s.emergency_triggered = false
    · have hstep : handle_inactivity_tracking st t s
          = ({ s with
                inactive_start_time := some t0
                emergency_triggered := true
                emergency := trigger_emergency_protocol s.emergency },
             { emergency_call := true, returned_event := none,
               emergency_stopped := false }) := by
        simp only [handle_inactivity_tracking, if_pos hst, h, Option.getD_some,
          if_pos hc, monitor_trigger_emergency]
      have hb : decide (t - t0 ≥ inactivity_threshold) = true := decide_eq_true hc.1
      obtain ⟨ih1, ih2, ih3⟩ := ih
        ({ s with
            inactive_start_time := some t0
            emergency_triggered := true
            emergency := trigger_emergency_protocol s.emergency }) t0 rfl
        (fun g hg => hall g (List.mem_cons_of_mem _ hg))
      refine ⟨?_, ?_, ?_⟩
      · simp only [trackerStates, hstep, List.map_cons, ih1]
      · simp only [trackerStates, hstep, List.map_cons, scanOr, hb, hc.2,
          Bool.or_true, ih2]
      · simp only [trackerEvents, hstep, List.map_cons, firstHits, hb, hc.2,
          Bool.or_true, Bool.not_false, Bool.and_true, ih3]
    · have hstep : handle_inactivity_tracking st t s
          = ({ s with inactive_start_time := some t0 }, noEvents) := by
        simp only [handle_inactivity_tracking, if_pos hst, h, Option.getD_some,
          if_neg hc]
      have hor : (s.emergency_triggered || decide (t - t0 ≥ inactivity_threshold))
          = s.emergency_triggered := by
        cases ha : s.emergency_triggered
        · have : ¬ t - t0 ≥ inactivity_threshold := fun hd => hc ⟨hd, ha⟩
          simp [this]
        · simp
      have hhit : (! s.emergency_triggered && decide (t - t0 ≥ inactivity_threshold))
          = false := by
        cases ha : s.emergency_triggered
        · have : ¬ t - t0 ≥ inactivity_threshold := fun hd => hc ⟨hd, ha⟩
          simp [this]
        · simp
      obtain ⟨ih1, ih2, ih3⟩ := ih ({ s with inactive_start_time := some t0 }) t0 rfl
        (fun g hg => hall g (List.mem_cons_of_mem _ hg))
      refine ⟨?_, ?_, ?_⟩
      · simp only [trackerStates, hstep, List.map_cons, ih1]
      · simp only [trackerStates, hstep, List.map_cons, scanOr, hor, ih2]
      · simp only [trackerEvents, hstep, List.map_cons, firstHits, hhit, hor,
          ih3, noEvents]

/-- C1: over any contiguous run of non-"Active" frames starting from a
closed window and a cleared `emergency_triggered` flag, the tracker opens the
window exactly once, at the first frame's time, and keeps it there; the
emergency escalator is triggered exactly at the first frame whose elapsed
time `now - inactive_start_time` reaches `inactivity_threshold` (and at no
other frame of the run); and the `emergency_triggered` flag is set from that
frame on, so no further trigger can occur until the window closes and
reopens. -/
theorem c1_inactivity_window_trigger_once
    (f : String × ℚ) (rest : List (String × ℚ)) (s0 : MonitorState)
    (hwin : s0.inactive_start_time = none)
    (hflag : s0.emergency_triggered = false)
    (hact : ∀ g ∈ f :: rest, g.1 ≠ "Active") :
    ((trackerStates (f :: rest) s0).map (fun m => m.inactive_start_time)
        = (f :: rest).map (fun _ => some f.2))
  ∧ (∀ (k : ℕ), (((trackerEvents (f :: rest) s0).map (fun e => e.emergency_call))[k]? = some true ↔
        ((∃ u, (((f :: rest).map Prod.snd))[k]? = some u ∧ u - f.2 ≥ inactivity_threshold)
          ∧ ∀ (j : ℕ) (u : ℚ), j < k → (((f :: rest).map Prod.snd))[j]? = some u →
              u - f.2 < inactivity_threshold)))
  ∧ (∀ (k : ℕ) (m : MonitorState), (trackerStates (f :: rest) s0)[k]? = some m →
        (m.emergency_triggered = true ↔
          ∃ (j : ℕ) (u : ℚ), j ≤ k ∧ (((f :: rest).map Prod.snd))[j]? = some u
            ∧ u - f.2 ≥ inactivity_threshold)) := by
  obtain ⟨st, t⟩ := f
  obtain ⟨win, flag, cs, lat, le, lm, dc, yc, em⟩ := s0
  simp only at hwin hflag
  subst hwin
  subst hflag
  have hst : st ≠ "Active" := hact (st, t) (by simp)
  have hfirst : handle_inactivity_tracking st t
      (⟨none, false, cs, lat, le, lm, dc, yc, em⟩ : MonitorState)
      = handle_inactivity_tracking st t
        (⟨some t, false, cs, lat, le, lm, dc, yc, em⟩ : MonitorState) := by
    simp only [handle_inactivity_tracking, if_pos hst]
    rfl
  have hstates : trackerStates ((st, t) :: rest)
      (⟨none, false, cs, lat, le, lm, dc, yc, em⟩ : MonitorState)
      = trackerStates ((st, t) :: rest)
        (⟨some t, false, cs, lat, le, lm, dc, yc, em⟩ : MonitorState) := by
    simp only [trackerStates, hfirst]
  have hevents : trackerEvents ((st, t) :: rest)
      (⟨none, false, cs, lat, le, lm, dc, yc, em⟩ : MonitorState)
      = trackerEvents ((st, t) :: rest)
        (⟨some t, false, cs, lat, le, lm, dc, yc, em⟩ : MonitorState) := by
    simp only [trackerEvents, hfirst]
  obtain ⟨hw, hf, he⟩ := trackerRun_char ((st, t) :: rest)
    (⟨some t, false, cs, lat, le, lm, dc, yc, em⟩ : MonitorState) t rfl hact
  have hbs : ∀ (k : ℕ), (((st, t) :: rest).map
        (fun g => decide (g.2 - t ≥ inactivity_threshold)))[k]?
      = ((((st, t) :: rest).map Prod.snd)[k]?).map
          (fun u => decide (u - t ≥ inactivity_threshold)) := by
    intro k
    rw [List.getElem?_map, List.getElem?_map]
    cases ((st, t) :: rest)[k]? <;> rfl
  refine ⟨?_, ?_, ?_⟩
  · rw [hstates, hw]
  · intro k
    rw [hevents, he]
    simp only
    rw [firstHits_getElem_some_true]
    constructor
    · rintro ⟨-, hk, hj⟩
      rw [hbs k] at hk
      obtain ⟨u, hu, hd⟩ := Option.map_eq_some'.mp hk
      refine ⟨⟨u, hu, of_decide_eq_true hd⟩, fun j u' hjk hu' => ?_⟩
      have hbj := hj j hjk
      rw [hbs j, hu'] at hbj
      simp only [Option.map_some', Option.some.injEq] at hbj
      exact lt_of_not_ge (of_decide_eq_false hbj)
    · rintro ⟨⟨u, hu, hd⟩, hjs⟩
      have hklen : k < (((st, t) :: rest).map Prod.snd).length :=
        (List.getElem?_eq_some.mp hu).1
      refine ⟨rfl, ?_, fun j hjk => ?_⟩
      · rw [hbs k, hu]
        simp [decide_eq_true hd]
      · have hjlen : j < (((st, t) :: rest).map Prod.snd).length :=
          lt_trans hjk hklen
        have hju := List.getElem?_eq_getElem hjlen
        rw [hbs j, hju]
        simp only [Option.map_some', Option.some.injEq]
        exact decide_eq_false (not_le_of_lt (hjs j _ hjk hju))
  · intro k m hm
    rw [hstates] at hm
    have hflags : (scanOr false (((st, t) :: rest).map
        (fun g => decide (g.2 - t ≥ inactivity_threshold))))[k]?
        = some m.emergency_triggered := by
      rw [← hf, List.getElem?_map, hm]
      rfl
    rw [scanOr_getElem_iff _ false k m.emergency_triggered hflags]
    simp only [Bool.false_eq_true, false_or]
    constructor
    · rintro ⟨j, hj, hb⟩
      rw [hbs j] at hb
      obtain ⟨u, hu, hd⟩ := Option.map_eq_some'.mp hb
      exact ⟨j, u, hj, hu, of_decide_eq_true hd⟩
    · rintro ⟨j, u, hj, hu, hd⟩
      refine ⟨j, hj, ?_⟩
      rw [hbs j, hu]
      simp [decide_eq_true hd]

/-- Witness for C1: a run of "Drowsy" frames at times 0, 2, 5 from a freshly
reset monitor keeps the window open at time 0 on every frame. -/
theorem c1_inactivity_window_trigger_once_witness :
    (trackerStates [("Drowsy", (0:ℚ)), ("Drowsy", 2), ("Drowsy", 5)]
        (⟨none, false, "Active", 0, 0, 0, 0, 0, emergencyInit⟩ : MonitorState)).map
        (fun m => m.inactive_start_time)
      = [("Drowsy", (0:ℚ)), ("Drowsy", 2), ("Drowsy", 5)].map
          (fun _ => some (("Drowsy", (0:ℚ)).2)) :=
  (c1_inactivity_window_trigger_once ("Drowsy", (0:ℚ))
    [("Drowsy", 2), ("Drowsy", 5)]
    (⟨none, false, "Active", 0, 0, 0, 0, 0, emergencyInit⟩ : MonitorState)
    rfl rfl (by
      rintro g hg
      simp only [List.mem_cons, List.not_mem_nil, or_false] at hg
      rcases hg with rfl | rfl | rfl <;> decide)).1

/-- C2: on any single-face frame whose status classifies as "Active" (over
every branch of `determine_status_simple` — counters reset, or a drowsy/yawn
counter still below its threshold) while an inactivity window opened at `t0`
is open (so the displayed status is non-"Active"), one `process_frame` step
emits the returned-to-active event carrying the total elapsed duration
`now - t0` and this frame's EAR and MAR, closes the window, clears
`emergency_triggered`, stops any active emergency, and records status
"Active" — all within that same frame. -/
theorem c2_return_to_active_closes_window
    (ear mar now t0 : ℚ) (s : MonitorState)
    (hwin : s.inactive_start_time = some t0)
    (hst : s.current_status ≠ "Active")
    (hactive : (determine_status_simple ear mar s.drowsy_counter s.yawn_counter).2.2
        = "Active") :
    (process_single_face ear mar now s).2.returned_event = some (now - t0, ear, mar)
  ∧ (process_single_face ear mar now s).1.inactive_start_time = none
  ∧ (process_single_face ear mar now s).1.emergency_triggered = false
  ∧ (process_single_face ear mar now s).2.emergency_stopped
      = s.emergency.is_emergency_active
  ∧ (process_single_face ear mar now s).1.emergency.is_emergency_active = false
  ∧ (process_single_face ear mar now s).1.current_status = "Active" := by
  obtain ⟨win, flag, cs, lat, le0, lm0, dc, yc, em⟩ := s
  simp only at hwin hst hactive
  subst hwin
  have hne : "Active" ≠ cs := Ne.symm hst
  simp only [process_single_face]
  rw [hactive, if_pos rfl]
  simp only [reset_inactivity_tracking, if_pos hst, update_status, if_pos hne]
  cases hem : em.is_emergency_active
  · simp [hem, if_neg hne]
  · simp [hem, stop_emergency_protocol, if_neg hne]

/-- Witness for C2: window open since time 2 with status "Yawning" and yawn
counter 3, emergency active; a frame at time 8 with EAR 0.1 (below the drowsy
threshold, drowsy counter rising to 1 — still classified "Active") logs a
6-second return event with the frame EAR/MAR, closes everything, and stops
the emergency. -/
theorem c2_return_to_active_closes_window_witness :
    (process_single_face (1/10) (7/10) 8
      (⟨some 2, true, "Yawning", 0, 1/10, 2/10, 0, 3,
        ⟨true, 3, true⟩⟩ : MonitorState)).2.returned_event = some (6, 1/10, 7/10)
  ∧ (process_single_face (1/10) (7/10) 8
      (⟨some 2, true, "Yawning", 0, 1/10, 2/10, 0, 3,
        ⟨true, 3, true⟩⟩ : MonitorState)).1.inactive_start_time = none
  ∧ (process_single_face (1/10) (7/10) 8
      (⟨some 2, true, "Yawning", 0, 1/10, 2/10, 0, 3,
        ⟨true, 3, true⟩⟩ : MonitorState)).1.emergency.is_emergency_active = false := by
  have h := c2_return_to_active_closes_window (1/10) (7/10) 8 2
    (⟨some 2, true, "Yawning", 0, 1/10, 2/10, 0, 3, ⟨true, 3, true⟩⟩ : MonitorState)
    rfl (by decide)
    (by norm_num [determine_status_simple])
  refine ⟨?_, h.2.1, h.2.2.2.2.1⟩
  rw [h.1]
  norm_num

/-- Counterexample for C9: `speak_status` suppresses a repeat of the same
status within 3 seconds even when that status is critical ("Emergency" maps
to priority "high"): the state is returned unchanged and nothing is
enqueued, contradicting delivery "regardless of the interval". -/
theorem c9_high_priority_repeat_suppressed_cex :
    speak_status "Emergency" 1
      (⟨true, some "Emergency", 0, false, []⟩ : AIFeedbackState)
      = (⟨true, some "Emergency", 0, false, []⟩ : AIFeedbackState)
  ∧ "Emergency" ∈ critical_statuses
  ∧ (1 : ℚ) - 0 < min_speech_interval := by
  refine ⟨?_, by decide, by norm_num [min_speech_interval]⟩
  simp only [speak_status]
  rw [if_neg (by simp), if_pos (by constructor <;> norm_num [min_speech_interval])]

/-- C9 (amended): the notification sink suppresses a repeated notification of
the same status within 3 seconds of the previous one regardless of priority;
outside that window (and when not busy speaking, or for a critical status,
which carries high priority and clears the pending queue) the notification
is delivered and the de-duplication bookkeeping updated. -/
theorem c9_amended_rate_limit_unconditional (status : String) (now : ℚ)
    (s : AIFeedbackState) :
    (s.tts_engine = true → s.last_spoken_status = some status →
      now - s.last_speech_time < min_speech_interval →
      speak_status status now s = s)
  ∧ (s.tts_engine = true →
      ¬ (s.last_spoken_status = some status ∧
          now - s.last_speech_time < min_speech_interval) →
      (s.is_speaking = false ∨ status ∈ critical_statuses) →
      speak_status status now s =
        { s with
            speech_queue :=
              (if status ∈ critical_statuses then [] else s.speech_queue)
                ++ [(status, if status ∈ critical_statuses then "high" else "normal")]
            last_spoken_status := some status
            last_speech_time := now }) := by
  constructor
  · intro htts hsame hlt
    unfold speak_status
    rw [if_neg (fun hh => hh htts), if_pos ⟨hsame, hlt⟩]
  · intro htts hnot hok
    have hpass : ¬ (s.is_speaking = true ∧ ¬ status ∈ critical_statuses) := by
      rcases hok with h | h
      · rintro ⟨hh1, -⟩; rw [h] at hh1; exact Bool.false_ne_true hh1
      · rintro ⟨-, hh2⟩; exact hh2 h
    unfold speak_status
    rw [if_neg (fun hh => hh htts), if_neg hnot, if_neg hpass]
    by_cases hcrit : status ∈ critical_statuses
    · simp [hcrit]
    · simp [hcrit, if_neg (show ("normal" : String) ≠ "high" from by decide)]

/-- Witness for C9 (amended): after 4 seconds, a repeated "Emergency" is
delivered with high priority and clears a pending normal-priority entry. -/
theorem c9_amended_rate_limit_unconditional_witness :
    speak_status "Emergency" 4
      (⟨true, some "Emergency", 0, false, [("Active", "normal")]⟩ : AIFeedbackState)
      = (⟨true, some "Emergency", 4, false, [("Emergency", "high")]⟩ : AIFeedbackState) := by
  have h := (c9_amended_rate_limit_unconditional "Emergency" 4
    (⟨true, some "Emergency", 0, false, [("Active", "normal")]⟩ : AIFeedbackState)).2
    rfl (by rintro ⟨-, hlt⟩; norm_num [min_speech_interval] at hlt) (Or.inl rfl)
  rw [h]
  have hmem : "Emergency" ∈ critical_statuses := by decide
  simp [hmem]

/-- Counterexample for C6: on a landmark sequence missing the required eye
indices (here the empty sequence), `calculate_ear` does not return the last
known (previous smoothed) value 0.3: each eye substitutes the default 0.25,
which is appended to the history and returned. -/
theorem c6_missing_landmark_ear_default_cex :
    (calculate_ear taxi [] none eyeInit).1 = 1/4
  ∧ eyeInit.last_ear = 3/10
  ∧ ((1 : ℚ)/4 ≠ 3/10) := by
  have hl : left_eye_points.all (fun i => i < ([] : List Point).length) = false := by decide
  have hr : right_eye_points.all (fun i => i < ([] : List Point).length) = false := by decide
  refine ⟨?_, rfl, by norm_num⟩
  have e1 : calculate_single_eye_ear taxi [] left_eye_points eyeInit.last_ear = 25/100 := by
    unfold calculate_single_eye_ear
    rw [if_neg (by simp [hl]; exact ⟨33, by decide⟩)]
  have e2 : calculate_single_eye_ear taxi [] right_eye_points eyeInit.last_ear = 25/100 := by
    unfold calculate_single_eye_ear
    rw [if_neg (by simp [hr]; exact ⟨362, by decide⟩)]
  have hraw : ear_raw taxi [] none eyeInit = 1/4 := by
    unfold ear_raw
    rw [e1, e2]
    norm_num
  unfold calculate_ear
  rw [hraw]
  norm_num [eyeInit]

/-- C6 (amended): on a landmark sequence missing a required index, neither
extractor propagates an error: `calculate_mar` returns the previous smoothed
value with its state untouched, while `calculate_ear` substitutes the default
0.25 raw sample for each affected eye — per eye, so a frame missing only one
eye contributes (0.25 + other eye)/2 — and proceeds with smoothing; with both
eyes affected the step behaves exactly as on an empty landmark list. -/
theorem c6_amended_missing_landmark_fallbacks (nrm : Point → Point → ℚ)
    (landmarks : List Point) :
    (∀ (s : YawnDetectorState),
        mouth_points.all (fun i => i < landmarks.length) = false →
        calculate_mar nrm landmarks s = (s.last_mar, s))
  ∧ (∀ (pts : List ℕ) (last : ℚ),
        pts.all (fun i => i < landmarks.length) = false →
        calculate_single_eye_ear nrm landmarks pts last = 25/100)
  ∧ (∀ (s : EyeTrackerState),
        left_eye_points.all (fun i => i < landmarks.length) = false →
        ear_raw nrm landmarks none s
          = (25/100 + calculate_single_eye_ear nrm landmarks right_eye_points s.last_ear) / 2)
  ∧ (∀ (s : EyeTrackerState),
        right_eye_points.all (fun i => i < landmarks.length) = false →
        ear_raw nrm landmarks none s
          = (calculate_single_eye_ear nrm landmarks left_eye_points s.last_ear + 25/100) / 2)
  ∧ (∀ (s : EyeTrackerState),
        left_eye_points.all (fun i => i < landmarks.length) = false →
        right_eye_points.all (fun i => i < landmarks.length) = false →
        ear_raw nrm landmarks none s = 1/4
      ∧ calculate_ear nrm landmarks none s = calculate_ear nrm [] none s) := by
  have h0l : left_eye_points.all (fun i => i < ([] : List Point).length) = false := by decide
  have h0r : right_eye_points.all (fun i => i < ([] : List Point).length) = false := by decide
  have hdefault : ∀ (pts : List ℕ) (last : ℚ),
      pts.all (fun i => i < landmarks.length) = false →
      calculate_single_eye_ear nrm landmarks pts last = 25/100 := by
    intro pts last h
    unfold calculate_single_eye_ear
    rw [if_neg (fun hh => Bool.false_ne_true (h.symm.trans hh))]
  refine ⟨?_, hdefault, ?_, ?_, ?_⟩
  · intro s hmiss
    simp [calculate_mar, hmiss]
  · intro s hl
    show (calculate_single_eye_ear nrm landmarks left_eye_points s.last_ear
        + calculate_single_eye_ear nrm landmarks right_eye_points s.last_ear) / 2 = _
    rw [hdefault left_eye_points s.last_ear hl]
  · intro s hr
    show (calculate_single_eye_ear nrm landmarks left_eye_points s.last_ear
        + calculate_single_eye_ear nrm landmarks right_eye_points s.last_ear) / 2 = _
    rw [hdefault right_eye_points s.last_ear hr]
  · intro s hl hr
    have hrawL : ear_raw nrm landmarks none s = 1/4 := by
      show (calculate_single_eye_ear nrm landmarks left_eye_points s.last_ear
          + calculate_single_eye_ear nrm landmarks right_eye_points s.last_ear) / 2 = _
      rw [hdefault left_eye_points s.last_ear hl, hdefault right_eye_points s.last_ear hr]
      norm_num
    have hrawR : ear_raw nrm [] none s = 1/4 := by
      show (calculate_single_eye_ear nrm [] left_eye_points s.last_ear
          + calculate_single_eye_ear nrm [] right_eye_points s.last_ear) / 2 = _
      unfold calculate_single_eye_ear
      rw [if_neg (fun hh => Bool.false_ne_true (h0l.symm.trans hh)),
        if_neg (fun hh => Bool.false_ne_true (h0r.symm.trans hh))]
      norm_num
    exact ⟨hrawL, by simp only [calculate_ear, hrawL, hrawR]⟩

set_option maxRecDepth 4000 in
/-- Witness for C6 (amended): the empty list misses every index, so
`calculate_mar` returns the stored previous value and a single eye defaults
to 0.25; on a 300-point frame only the right-eye indices (up to 387) are
missing, and the raw EAR is (left eye + 0.25)/2. -/
theorem c6_amended_missing_landmark_fallbacks_witness :
    calculate_mar taxi [] yawnInit = (yawnInit.last_mar, yawnInit)
  ∧ calculate_single_eye_ear taxi [] right_eye_points (3/10) = 25/100
  ∧ ear_raw taxi (List.replicate 300 (((0 : ℚ), (0 : ℚ)) : Point)) none eyeInit
      = (calculate_single_eye_ear taxi (List.replicate 300 (((0 : ℚ), (0 : ℚ)) : Point))
          left_eye_points eyeInit.last_ear + 25/100) / 2 :=
  ⟨(c6_amended_missing_landmark_fallbacks taxi []).1 yawnInit (by decide),
   (c6_amended_missing_landmark_fallbacks taxi []).2.1 right_eye_points (3/10) (by decide),
   (c6_amended_missing_landmark_fallbacks taxi
      (List.replicate 300 (((0 : ℚ), (0 : ℚ)) : Point))).2.2.2.1 eyeInit (by decide)⟩

/-- Landmark layout for the C5 counterexample.  All points are axis-aligned
(each distance taken by the extractor is along a single axis), so on these
points the taxicab distance `taxi` coincides with the Euclidean
`np.linalg.norm` of the code.  Both eyes get horizontal distance 1 and
vertical distances 2 and 0, so each raw single-eye EAR is (2+0)/(2·1) = 1,
clamped to 1. -/
def cexEarPoint (i : ℕ) : Point :=
  if i = 133 ∨ i = 263 then ((1 : ℚ), 0)
  else if i = 144 ∨ i = 380 then ((0 : ℚ), 2)
  else ((0 : ℚ), 0)

/-- A full 388-point landmark frame (covering every index the eye extractor
uses) built from `cexEarPoint`. -/
def cexEarLandmarks : List Point := (List.range 388).map cexEarPoint

/-- Looking up the counterexample frame yields `cexEarPoint`. -/
theorem cexEarLandmarks_getD (i : ℕ) (hi : i < 388) :
    cexEarLandmarks.getD i default = cexEarPoint i := by
  rw [cexEarLandmarks, List.getD_eq_getElem?_getD, List.getElem?_map]
  simp [List.getElem?_range, hi]

/-- Counterexample for C5: on a valid landmark frame (every required eye
index present) whose clamped per-eye EAR is 1, head-pose compensation with
pitch 20 and yaw 30 multiplies by 1.1 and 1.05, so `calculate_ear` returns
1.155 — outside [0, 1] — already as the first smoothed output. -/
theorem c5_ear_exceeds_one_with_compensation_cex :
    earOutputs taxi [(cexEarLandmarks, some ⟨20, 30⟩)] eyeInit = [231/200]
  ∧ ¬ ((231 : ℚ)/200 ≤ 1)
  ∧ left_eye_points.all (fun i => i < cexEarLandmarks.length) = true
  ∧ right_eye_points.all (fun i => i < cexEarLandmarks.length) = true := by
  have hlen : cexEarLandmarks.length = 388 := by simp [cexEarLandmarks]
  have hvall : left_eye_points.all (fun i => i < cexEarLandmarks.length) = true := by
    rw [hlen]; decide
  have hvalr : right_eye_points.all (fun i => i < cexEarLandmarks.length) = true := by
    rw [hlen]; decide
  have hLeye : calculate_single_eye_ear taxi cexEarLandmarks left_eye_points
      eyeInit.last_ear = 1 := by
    unfold calculate_single_eye_ear
    rw [if_pos (by simp [hvall])]
    simp only [left_eye_points, List.map_cons, List.map_nil]
    rw [cexEarLandmarks_getD 33 (by norm_num), cexEarLandmarks_getD 160 (by norm_num),
      cexEarLandmarks_getD 158 (by norm_num), cexEarLandmarks_getD 133 (by norm_num),
      cexEarLandmarks_getD 153 (by norm_num), cexEarLandmarks_getD 144 (by norm_num)]
    have p33 : cexEarPoint 33 = ((0 : ℚ), 0) := by simp [cexEarPoint]
    have p160 : cexEarPoint 160 = ((0 : ℚ), 0) := by simp [cexEarPoint]
    have p158 : cexEarPoint 158 = ((0 : ℚ), 0) := by simp [cexEarPoint]
    have p133 : cexEarPoint 133 = ((1 : ℚ), 0) := by simp [cexEarPoint]
    have p153 : cexEarPoint 153 = ((0 : ℚ), 0) := by simp [cexEarPoint]
    have p144 : cexEarPoint 144 = ((0 : ℚ), 2) := by simp [cexEarPoint]
    rw [p33, p160, p158, p133, p153, p144]
    simp only [List.length_cons, List.length_nil, List.getD_cons_zero, List.getD_cons_succ]
    rw [if_neg (by norm_num)]
    rw [if_pos (by norm_num [taxi])]
    norm_num [taxi]
  have hReye : calculate_single_eye_ear taxi cexEarLandmarks right_eye_points
      eyeInit.last_ear = 1 := by
    unfold calculate_single_eye_ear
    rw [if_pos (by simp [hvalr])]
    simp only [right_eye_points, List.map_cons, List.map_nil]
    rw [cexEarLandmarks_getD 362 (by norm_num), cexEarLandmarks_getD 385 (by norm_num),
      cexEarLandmarks_getD 387 (by norm_num), cexEarLandmarks_getD 263 (by norm_num),
      cexEarLandmarks_getD 373 (by norm_num), cexEarLandmarks_getD 380 (by norm_num)]
    have p362 : cexEarPoint 362 = ((0 : ℚ), 0) := by simp [cexEarPoint]
    have p385 : cexEarPoint 385 = ((0 : ℚ), 0) := by simp [cexEarPoint]
    have p387 : cexEarPoint 387 = ((0 : ℚ), 0) := by simp [cexEarPoint]
    have p263 : cexEarPoint 263 = ((1 : ℚ), 0) := by simp [cexEarPoint]
    have p373 : cexEarPoint 373 = ((0 : ℚ), 0) := by simp [cexEarPoint]
    have p380 : cexEarPoint 380 = ((0 : ℚ), 2) := by simp [cexEarPoint]
    rw [p362, p385, p387, p263, p373, p380]
    simp only [List.length_cons, List.length_nil, List.getD_cons_zero, List.getD_cons_succ]
    rw [if_neg (by norm_num)]
    rw [if_pos (by norm_num [taxi])]
    norm_num [taxi]
  have hraw : ear_raw taxi cexEarLandmarks (some ⟨20, 30⟩) eyeInit = 231/200 := by
    unfold ear_raw
    rw [hLeye, hReye]
    norm_num [compensate_for_head_pose, abs_of_pos]
  refine ⟨?_, by norm_num, hvall, hvalr⟩
  simp only [earOutputs, calculate_ear, hraw]
  norm_num [eyeInit]

/-- The mean of a nonempty list of values in [0,1] is in [0,1]. -/
theorem mean_mem_unit (l : List ℚ) (hne : l ≠ [])
    (hb : ∀ x ∈ l, 0 ≤ x ∧ x ≤ 1) :
    0 ≤ l.sum / (l.length : ℚ) ∧ l.sum / (l.length : ℚ) ≤ 1 := by
  have hpos : 0 < (l.length : ℚ) := by
    exact_mod_cast List.length_pos.mpr hne
  constructor
  · exact div_nonneg (List.sum_nonneg fun x hx => (hb x hx).1) (le_of_lt hpos)
  · rw [div_le_one hpos]
    calc l.sum ≤ l.length • (1 : ℚ) :=
          List.sum_le_card_nsmul l 1 fun x hx => (hb x hx).2
      _ = (l.length : ℚ) := by simp

/-- The mean of a list of nonnegative values is nonnegative. -/
theorem mean_nonneg (l : List ℚ) (hb : ∀ x ∈ l, 0 ≤ x) :
    0 ≤ l.sum / (l.length : ℚ) :=
  div_nonneg (List.sum_nonneg hb) (by positivity)

/-- Range invariant of the eye tracker state: the stored smoothed value and
every history entry lie in [0,1]. -/
def EyeInv (s : EyeTrackerState) : Prop :=
  (0 ≤ s.last_ear ∧ s.last_ear ≤ 1) ∧ ∀ x ∈ s.ear_history, 0 ≤ x ∧ x ≤ 1

/-- Nonnegativity invariant of the yawn detector state. -/
def YawnInv (s : YawnDetectorState) : Prop :=
  0 ≤ s.last_mar ∧ ∀ x ∈ s.mar_history, 0 ≤ x

/-- A single-eye EAR value is always in [0,1] (default 0.25, clamped ratio,
or the previous value, assumed in range). -/
theorem calculate_single_eye_ear_bounds (nrm : Point → Point → ℚ)
    (landmarks : List Point) (pts : List ℕ) (last : ℚ)
    (hl : 0 ≤ last ∧ last ≤ 1) :
    0 ≤ calculate_single_eye_ear nrm landmarks pts last ∧
    calculate_single_eye_ear nrm landmarks pts last ≤ 1 := by
  refine ⟨?_, ?_⟩
  · unfold calculate_single_eye_ear
    dsimp only
    split_ifs <;> first
      | exact le_max_left 0 _
      | exact hl.1
      | norm_num
  · unfold calculate_single_eye_ear
    dsimp only
    split_ifs <;> first
      | exact max_le (by norm_num) (min_le_left 1 _)
      | exact hl.2
      | norm_num

/-- The FIFO smoothing window after pushing one in-range raw sample onto an
in-range history is nonempty with all entries in [0,1]. -/
theorem smoothing_window_mem_unit (hist : List ℚ) (raw : ℚ) (w : ℕ) (hw : 0 < w)
    (hhist : ∀ x ∈ hist, 0 ≤ x ∧ x ≤ 1) (hraw : 0 ≤ raw ∧ raw ≤ 1) :
    (∀ x ∈ (if (hist ++ [raw]).length > w then (hist ++ [raw]).drop 1
        else hist ++ [raw]), 0 ≤ x ∧ x ≤ 1)
  ∧ (if (hist ++ [raw]).length > w then (hist ++ [raw]).drop 1
        else hist ++ [raw]) ≠ [] := by
  constructor
  · intro x hx
    have hx' : x ∈ hist ++ [raw] := by
      split_ifs at hx
      · exact List.drop_subset 1 _ hx
      · exact hx
    rcases List.mem_append.mp hx' with h | h
    · exact hhist x h
    · exact List.mem_singleton.mp h ▸ hraw
  · split_ifs with hc
    · apply List.ne_nil_of_length_pos
      rw [List.length_drop]
      simp only [List.length_append, List.length_cons, List.length_nil, gt_iff_lt] at hc ⊢
      omega
    · simp

/-- One `calculate_ear` step without head-pose data returns a value in [0,1]
and preserves the range invariant. -/
theorem calculate_ear_step_bounds (nrm : Point → Point → ℚ)
    (landmarks : List Point) (s : EyeTrackerState) (hinv : EyeInv s) :
    (0 ≤ (calculate_ear nrm landmarks none s).1 ∧
      (calculate_ear nrm landmarks none s).1 ≤ 1) ∧
    EyeInv (calculate_ear nrm landmarks none s).2 := by
  obtain ⟨hlast, hhist⟩ := hinv
  have hled := calculate_single_eye_ear_bounds nrm landmarks left_eye_points s.last_ear hlast
  have hred := calculate_single_eye_ear_bounds nrm landmarks right_eye_points s.last_ear hlast
  have hraw : 0 ≤ ear_raw nrm landmarks none s ∧ ear_raw nrm landmarks none s ≤ 1 := by
    constructor
    · show 0 ≤ (calculate_single_eye_ear nrm landmarks left_eye_points s.last_ear
          + calculate_single_eye_ear nrm landmarks right_eye_points s.last_ear) / 2
      exact div_nonneg (add_nonneg hled.1 hred.1) (by norm_num)
    · show (calculate_single_eye_ear nrm landmarks left_eye_points s.last_ear
          + calculate_single_eye_ear nrm landmarks right_eye_points s.last_ear) / 2 ≤ 1
      rw [div_le_one (by norm_num : (0 : ℚ) < 2)]
      linarith [hled.2, hred.2]
  obtain ⟨hmem, hne⟩ := smoothing_window_mem_unit s.ear_history
    (ear_raw nrm landmarks none s) 8 (by norm_num) hhist hraw
  have hmean := mean_mem_unit _ hne hmem
  have hcalc : calculate_ear nrm landmarks none s
      = (((if (s.ear_history ++ [ear_raw nrm landmarks none s]).length > 8
            then (s.ear_history ++ [ear_raw nrm landmarks none s]).drop 1
            else s.ear_history ++ [ear_raw nrm landmarks none s]).sum
          / ((if (s.ear_history ++ [ear_raw nrm landmarks none s]).length > 8
            then (s.ear_history ++ [ear_raw nrm landmarks none s]).drop 1
            else s.ear_history ++ [ear_raw nrm landmarks none s]).length : ℚ)),
         ⟨(if (s.ear_history ++ [ear_raw nrm landmarks none s]).length > 8
            then (s.ear_history ++ [ear_raw nrm landmarks none s]).drop 1
            else s.ear_history ++ [ear_raw nrm landmarks none s]),
          ((if (s.ear_history ++ [ear_raw nrm landmarks none s]).length > 8
            then (s.ear_history ++ [ear_raw nrm landmarks none s]).drop 1
            else s.ear_history ++ [ear_raw nrm landmarks none s]).sum
          / ((if (s.ear_history ++ [ear_raw nrm landmarks none s]).length > 8
            then (s.ear_history ++ [ear_raw nrm landmarks none s]).drop 1
            else s.ear_history ++ [ear_raw nrm landmarks none s]).length : ℚ))⟩) := rfl
  rw [hcalc]
  exact ⟨hmean, hmean, hmem⟩

/-- All outputs of a head-pose-free `calculate_ear` run from an in-range
state are in [0,1]. -/
theorem earOutputs_mem_unit (nrm : Point → Point → ℚ) :
    ∀ (inputs : List (List Point × Option HeadPose)),
    (∀ p ∈ inputs, p.2 = none) →
    ∀ (s : EyeTrackerState), EyeInv s →
    ∀ x ∈ earOutputs nrm inputs s, 0 ≤ x ∧ x ≤ 1 := by
  intro inputs
  induction inputs with
  | nil => intro _ s _ x hx; simp [earOutputs] at hx
  | cons p rest ih =>
    intro hnone s hinv x hx
    obtain ⟨lms, hp⟩ := p
    have hp0 : hp = none := hnone (lms, hp) (by simp)
    subst hp0
    obtain ⟨hout, hinv'⟩ := calculate_ear_step_bounds nrm lms s hinv
    simp only [earOutputs] at hx
    rcases List.mem_cons.mp hx with h | h
    · exact h ▸ hout
    · exact ih (fun q hq => hnone q (List.mem_cons_of_mem _ hq)) _ hinv' x h

/-- The FIFO smoothing window after pushing a nonnegative raw sample onto a
nonnegative history is nonempty with all entries nonnegative. -/
theorem smoothing_window_nonneg (hist : List ℚ) (raw : ℚ) (w : ℕ) (hw : 0 < w)
    (hhist : ∀ x ∈ hist, 0 ≤ x) (hraw : 0 ≤ raw) :
    (∀ x ∈ (if (hist ++ [raw]).length > w then (hist ++ [raw]).drop 1
        else hist ++ [raw]), 0 ≤ x)
  ∧ (if (hist ++ [raw]).length > w then (hist ++ [raw]).drop 1
        else hist ++ [raw]) ≠ [] := by
  constructor
  · intro x hx
    have hx' : x ∈ hist ++ [raw] := by
      split_ifs at hx
      · exact List.drop_subset 1 _ hx
      · exact hx
    rcases List.mem_append.mp hx' with h | h
    · exact hhist x h
    · exact List.mem_singleton.mp h ▸ hraw
  · split_ifs with hc
    · apply List.ne_nil_of_length_pos
      rw [List.length_drop]
      simp only [List.length_append, List.length_cons, List.length_nil, gt_iff_lt] at hc ⊢
      omega
    · simp

/-- One `calculate_mar` step returns a nonnegative value and preserves the
nonnegativity invariant. -/
theorem calculate_mar_step_nonneg (nrm : Point → Point → ℚ)
    (hn : ∀ p q, 0 ≤ nrm p q) (landmarks : List Point)
    (s : YawnDetectorState) (hinv : YawnInv s) :
    0 ≤ (calculate_mar nrm landmarks s).1 ∧
    YawnInv (calculate_mar nrm landmarks s).2 := by
  obtain ⟨hlast, hhist⟩ := hinv
  have hraw : 0 ≤ mar_raw nrm landmarks s := by
    unfold mar_raw
    dsimp only
    split_ifs with hhd
    · apply div_nonneg (add_nonneg (hn _ _) (hn _ _))
      linarith
    · exact hlast
  by_cases hvalid : (mouth_points.all fun i => i < landmarks.length) = true
  · have hlen : ¬ ((mouth_points.map fun i => landmarks.getD i default).length < 6) := by
      simp [mouth_points]
    have hcalc : calculate_mar nrm landmarks s
        = (((if (s.mar_history ++ [mar_raw nrm landmarks s]).length > 10
              then (s.mar_history ++ [mar_raw nrm landmarks s]).drop 1
              else s.mar_history ++ [mar_raw nrm landmarks s]).sum
            / ((if (s.mar_history ++ [mar_raw nrm landmarks s]).length > 10
              then (s.mar_history ++ [mar_raw nrm landmarks s]).drop 1
              else s.mar_history ++ [mar_raw nrm landmarks s]).length : ℚ)),
           ⟨(if (s.mar_history ++ [mar_raw nrm landmarks s]).length > 10
              then (s.mar_history ++ [mar_raw nrm landmarks s]).drop 1
              else s.mar_history ++ [mar_raw nrm landmarks s]),
            ((if (s.mar_history ++ [mar_raw nrm landmarks s]).length > 10
              then (s.mar_history ++ [mar_raw nrm landmarks s]).drop 1
              else s.mar_history ++ [mar_raw nrm landmarks s]).sum
            / ((if (s.mar_history ++ [mar_raw nrm landmarks s]).length > 10
              then (s.mar_history ++ [mar_raw nrm landmarks s]).drop 1
              else s.mar_history ++ [mar_raw nrm landmarks s]).length : ℚ))⟩) := by
      unfold calculate_mar
      rw [if_pos hvalid, if_neg hlen]
    rw [hcalc]
    obtain ⟨hmem, hne⟩ := smoothing_window_nonneg s.mar_history
      (mar_raw nrm landmarks s) 10 (by norm_num) hhist hraw
    have hm := mean_nonneg _ hmem
    exact ⟨hm, hm, hmem⟩
  · unfold calculate_mar
    rw [if_neg hvalid]
    exact ⟨hlast, hlast, hhist⟩

/-- All outputs of a `calculate_mar` run from a nonnegative state are
nonnegative. -/
theorem marOutputs_nonneg (nrm : Point → Point → ℚ) (hn : ∀ p q, 0 ≤ nrm p q) :
    ∀ (inputs : List (List Point)) (s : YawnDetectorState), YawnInv s →
    ∀ x ∈ marOutputs nrm inputs s, 0 ≤ x := by
  intro inputs
  induction inputs with
  | nil => intro s _ x hx; simp [marOutputs] at hx
  | cons lms rest ih =>
    intro s hinv x hx
    obtain ⟨hout, hinv'⟩ := calculate_mar_step_nonneg nrm hn lms s hinv
    simp only [marOutputs] at hx
    rcases List.mem_cons.mp hx with h | h
    · exact h ▸ hout
    · exact ih _ hinv' x h

/-- Length of the last-`n` window. -/
theorem lastN_length (n : ℕ) (l : List ℚ) : (lastN n l).length = min n l.length := by
  simp only [lastN, List.length_drop]
  omega

/-- Pushing one element through a FIFO window of capacity `n`: truncating
`lastN n R ++ [a]` to capacity equals the last-`n` window of `R ++ [a]`. -/
theorem lastN_push (n : ℕ) (hn : 0 < n) (R : List ℚ) (a : ℚ) :
    (if (lastN n R ++ [a]).length > n then (lastN n R ++ [a]).drop 1
     else lastN n R ++ [a]) = lastN n (R ++ [a]) := by
  by_cases hR : R.length < n
  · have h1 : lastN n R = R := by
      simp [lastN, Nat.sub_eq_zero_of_le (le_of_lt hR)]
    rw [h1, if_neg (by simp only [List.length_append, List.length_cons,
      List.length_nil, gt_iff_lt]; omega)]
    rw [lastN, show (R ++ [a]).length - n = 0 by
      simp only [List.length_append, List.length_cons, List.length_nil]; omega]
    rw [List.drop_zero]
  · push_neg at hR
    have hlen : (lastN n R).length = n := by rw [lastN_length]; omega
    rw [if_pos (by simp only [List.length_append, List.length_cons,
      List.length_nil, hlen, gt_iff_lt]; omega)]
    rw [List.drop_append_of_le_length (by rw [hlen]; omega)]
    rw [lastN, lastN, List.drop_drop]
    rw [List.drop_append_of_le_length (by
      simp only [List.length_append, List.length_cons, List.length_nil]; omega)]
    congr 2
    simp only [List.length_append, List.length_cons, List.length_nil]
    omega

/-- A `calculate_ear` run produces one raw sample per frame. -/
theorem earRaws_length (nrm : Point → Point → ℚ) :
    ∀ (inputs : List (List Point × Option HeadPose)) (s : EyeTrackerState),
    (earRaws nrm inputs s).length = inputs.length := by
  intro inputs
  induction inputs with
  | nil => intro s; rfl
  | cons p rest ih =>
    intro s
    obtain ⟨lms, hp⟩ := p
    simp only [earRaws, List.length_cons, ih]

/-- A `calculate_mar` run produces one raw sample per frame. -/
theorem marRaws_length (nrm : Point → Point → ℚ) :
    ∀ (inputs : List (List Point)) (s : YawnDetectorState),
    (marRaws nrm inputs s).length = inputs.length := by
  intro inputs
  induction inputs with
  | nil => intro s; rfl
  | cons lms rest ih =>
    intro s
    simp only [marRaws, List.length_cons, ih]

/-- Smoothing characterisation of `calculate_ear`: when the stored history is
the last-8 window of some past raw-sample list `R`, the output at frame `k`
of a run is the mean of the last-8 window of `R` extended by the run's first
`k+1` raw samples. -/
theorem earOutputs_mean_char (nrm : Point → Point → ℚ) :
    ∀ (inputs : List (List Point × Option HeadPose)) (s : EyeTrackerState)
      (R : List ℚ), s.ear_history = lastN 8 R →
    ∀ (k : ℕ), k < inputs.length →
    (earOutputs nrm inputs s)[k]?
      = some ((lastN 8 (R ++ (earRaws nrm inputs s).take (k + 1))).sum
          / ((lastN 8 (R ++ (earRaws nrm inputs s).take (k + 1))).length : ℚ)) := by
  intro inputs
  induction inputs with
  | nil => intro s R _ k hk; simp at hk
  | cons p rest ih =>
    intro s R hs k hk
    obtain ⟨lms, hp⟩ := p
    have hstep : calculate_ear nrm lms hp s
        = ((lastN 8 (R ++ [ear_raw nrm lms hp s])).sum
            / ((lastN 8 (R ++ [ear_raw nrm lms hp s])).length : ℚ),
           ⟨lastN 8 (R ++ [ear_raw nrm lms hp s]),
            (lastN 8 (R ++ [ear_raw nrm lms hp s])).sum
            / ((lastN 8 (R ++ [ear_raw nrm lms hp s])).length : ℚ)⟩) := by
      have h8 := lastN_push 8 (by norm_num) R (ear_raw nrm lms hp s)
      unfold calculate_ear
      dsimp only
      rw [hs, h8]
    have hraws : earRaws nrm ((lms, hp) :: rest) s
        = ear_raw nrm lms hp s :: earRaws nrm rest (calculate_ear nrm lms hp s).2 := rfl
    cases k with
    | zero =>
      simp only [earOutputs, List.getElem?_cons_zero, hstep, hraws]
      simp
    | succ k =>
      simp only [earOutputs, List.getElem?_cons_succ]
      have hk' : k < rest.length := by simpa using Nat.lt_of_succ_lt_succ hk
      have hs1 : (calculate_ear nrm lms hp s).2.ear_history
          = lastN 8 (R ++ [ear_raw nrm lms hp s]) := by rw [hstep]
      rw [ih (calculate_ear nrm lms hp s).2 (R ++ [ear_raw nrm lms hp s]) hs1 k hk']
      rw [hraws]
      simp [List.append_assoc]

/-- Smoothing characterisation of `calculate_mar` on valid frames: when the
stored history is the last-10 window of some past raw-sample list `R`, the
output at frame `k` is the mean of the last-10 window of `R` extended by the
run's first `k+1` raw samples. -/
theorem marOutputs_mean_char (nrm : Point → Point → ℚ) :
    ∀ (inputs : List (List Point)) (s : YawnDetectorState) (R : List ℚ),
    s.mar_history = lastN 10 R →
    (∀ l ∈ inputs, (mouth_points.all fun i => i < l.length) = true) →
    ∀ (k : ℕ), k < inputs.length →
    (marOutputs nrm inputs s)[k]?
      = some ((lastN 10 (R ++ (marRaws nrm inputs s).take (k + 1))).sum
          / ((lastN 10 (R ++ (marRaws nrm inputs s).take (k + 1))).length : ℚ)) := by
  intro inputs
  induction inputs with
  | nil => intro s R _ _ k hk; simp at hk
  | cons lms rest ih =>
    intro s R hs hval k hk
    have hvalid : (mouth_points.all fun i => i < lms.length) = true := hval lms (by simp)
    have hlen6 : ¬ ((mouth_points.map fun i => lms.getD i default).length < 6) := by
      simp [mouth_points]
    have hstep : calculate_mar nrm lms s
        = ((lastN 10 (R ++ [mar_raw nrm lms s])).sum
            / ((lastN 10 (R ++ [mar_raw nrm lms s])).length : ℚ),
           ⟨lastN 10 (R ++ [mar_raw nrm lms s]),
            (lastN 10 (R ++ [mar_raw nrm lms s])).sum
            / ((lastN 10 (R ++ [mar_raw nrm lms s])).length : ℚ)⟩) := by
      have h10 := lastN_push 10 (by norm_num) R (mar_raw nrm lms s)
      unfold calculate_mar
      dsimp only
      rw [if_pos hvalid, if_neg hlen6, hs, h10]
    have hraws : marRaws nrm (lms :: rest) s
        = mar_raw nrm lms s :: marRaws nrm rest (calculate_mar nrm lms s).2 := rfl
    cases k with
    | zero =>
      simp only [marOutputs, List.getElem?_cons_zero, hstep, hraws]
      simp
    | succ k =>
      simp only [marOutputs, List.getElem?_cons_succ]
      have hk' : k < rest.length := by simpa using Nat.lt_of_succ_lt_succ hk
      have hs1 : (calculate_mar nrm lms s).2.mar_history
          = lastN 10 (R ++ [mar_raw nrm lms s]) := by rw [hstep]
      rw [ih (calculate_mar nrm lms s).2 (R ++ [mar_raw nrm lms s]) hs1
        (fun l hl => hval l (List.mem_cons_of_mem _ hl)) k hk']
      rw [hraws]
      simp [List.append_assoc]

/-- C5 (amended): with any nonnegative distance function (the Euclidean norm
of the code included): the EAR returned per frame equals the mean of the last
min(k, 8) raw EAR samples and the MAR the mean of the last min(k, 10) raw
MAR samples (FIFO windows, oldest dropped), head-pose compensation included
in the raw EAR samples; EAR outputs lie in [0,1] on runs without head-pose
data (with compensation the bound 1 can be exceeded, see the counterexample);
MAR outputs lie in [0, ∞) always. -/
theorem c5_amended_extractor_ranges_and_smoothing (nrm : Point → Point → ℚ)
    (hn : ∀ p q, 0 ≤ nrm p q) :
    (∀ (inputs : List (List Point × Option HeadPose)), (∀ p ∈ inputs, p.2 = none) →
        ∀ x ∈ earOutputs nrm inputs eyeInit, 0 ≤ x ∧ x ≤ 1)
  ∧ (∀ (inputs : List (List Point)), ∀ x ∈ marOutputs nrm inputs yawnInit, 0 ≤ x)
  ∧ (∀ (inputs : List (List Point × Option HeadPose)) (k : ℕ), k < inputs.length →
        (earOutputs nrm inputs eyeInit)[k]?
          = some ((lastN 8 ((earRaws nrm inputs eyeInit).take (k + 1))).sum
              / ((min (k + 1) 8 : ℕ) : ℚ)))
  ∧ (∀ (inputs : List (List Point)),
        (∀ l ∈ inputs, (mouth_points.all fun i => i < l.length) = true) →
        ∀ (k : ℕ), k < inputs.length →
        (marOutputs nrm inputs yawnInit)[k]?
          = some ((lastN 10 ((marRaws nrm inputs yawnInit).take (k + 1))).sum
              / ((min (k + 1) 10 : ℕ) : ℚ))) := by
  refine ⟨?_, ?_, ?_, ?_⟩
  · intro inputs hnone x hx
    have hinv : EyeInv eyeInit := ⟨⟨by norm_num [eyeInit], by norm_num [eyeInit]⟩,
      by simp [eyeInit]⟩
    exact earOutputs_mem_unit nrm inputs hnone eyeInit hinv x hx
  · intro inputs x hx
    have hinv : YawnInv yawnInit := ⟨by norm_num [yawnInit], by simp [yawnInit]⟩
    exact marOutputs_nonneg nrm hn inputs yawnInit hinv x hx
  · intro inputs k hk
    have h := earOutputs_mean_char nrm inputs eyeInit [] rfl k hk
    rw [List.nil_append] at h
    have hlen : (lastN 8 ((earRaws nrm inputs eyeInit).take (k + 1))).length
        = min (k + 1) 8 := by
      rw [lastN_length, List.length_take, earRaws_length]
      omega
    rw [h, hlen]
  · intro inputs hval k hk
    have h := marOutputs_mean_char nrm inputs yawnInit [] rfl hval k hk
    rw [List.nil_append] at h
    have hlen : (lastN 10 ((marRaws nrm inputs yawnInit).take (k + 1))).length
        = min (k + 1) 10 := by
      rw [lastN_length, List.length_take, marRaws_length]
      omega
    rw [h, hlen]

/-- Witness for C5 (amended): on a one-frame run, the first smoothed EAR
output is the mean of the window holding the single raw sample. -/
theorem c5_amended_extractor_ranges_and_smoothing_witness :
    (earOutputs taxi [([], none)] eyeInit)[0]?
      = some ((lastN 8 ((earRaws taxi [([], none)] eyeInit).take (0 + 1))).sum
          / ((min (0 + 1) 8 : ℕ) : ℚ)) :=
  (c5_amended_extractor_ranges_and_smoothing taxi
    (fun p q => add_nonneg (abs_nonneg _) (abs_nonneg _))).2.2.1 [([], none)] 0 (by simp)
